import Mathlib

-- Todo service of main.go: the four request handlers (createTodo, updateTodo,
-- fetchTodos, deleteTodo) as state-passing functions over a MongoDB collection,
-- together with the library calls they make (strings.TrimSpace, encoding/hex,
-- bson.ObjectId, the mgo collection operations).

namespace TodoService

-- ---------------------------------------------------------------------------
-- Go strings, encoding/hex and bson.ObjectId
-- ---------------------------------------------------------------------------

/-- A byte of a Go string or byte slice. -/
abbrev Byte := Fin 256

/-- The bson.ObjectId type (Go: `type ObjectId string`): a string of raw bytes, twelve of
them for every id that bson.NewObjectId produces. -/
abbrev ObjectId := List Byte

/-- Go `len(s)` of a string: its length in bytes (UTF-8). -/
def len (s : String) : Nat := s.utf8ByteSize

/-- The table `hextable` of encoding/hex. -/
def hextable : String := "0123456789abcdef"

/-- The entry `hextable[n]`. -/
def hexDigit (n : Nat) : Char := hextable.data.getD n '0'

/-- One step of the loop of hex.Encode: the byte `v` gives the two characters
`hextable[v>>4]`, `hextable[v&0x0f]`. -/
def encodeByte (v : Byte) : List Char := [hexDigit (v.val >>> 4), hexDigit (v.val &&& 0x0f)]

/-- The function hex.EncodeToString: the two characters of every byte, in order. -/
def EncodeToString (src : List Byte) : String := String.mk (src.flatMap encodeByte)

/-- The function fromHexChar of encoding/hex: the value of a hex digit, upper or lower case,
`none` for any other character (a character outside ASCII has only bytes above 0x7f, none of
which is a hex digit). -/
def fromHexChar (c : Char) : Option Nat :=
  if 48 ≤ c.toNat ∧ c.toNat ≤ 57 then some (c.toNat - 48)
  else if 97 ≤ c.toNat ∧ c.toNat ≤ 102 then some (c.toNat - 97 + 10)
  else if 65 ≤ c.toNat ∧ c.toNat ≤ 70 then some (c.toNat - 65 + 10)
  else none

/-- The loop of hex.Decode: the input is read two characters at a time, each pair `p q` gives
the byte `(a << 4) | b`; an invalid digit or an odd length is an error (`none`). -/
def decodePairs : List Char → Option (List Byte)
  | [] => some []
  | [_] => none
  | p :: q :: rest =>
    match fromHexChar p, fromHexChar q with
    | some a, some b =>
      match decodePairs rest with
      | some out => some (⟨((a <<< 4) ||| b) % 256, Nat.mod_lt _ (by decide)⟩ :: out)
      | none => none
    | _, _ => none

/-- The function hex.DecodeString, `none` standing for its error result. -/
def DecodeString (s : String) : Option (List Byte) := decodePairs s.data

/-- The function bson.IsObjectIdHex: `len(s) == 24` and `hex.DecodeString(s)` gives no error. -/
def IsObjectIdHex (s : String) : Bool :=
  if len s ≠ 24 then false
  else (DecodeString s).isSome

/-- The function bson.ObjectIdHex: the decoded bytes; it panics (`none`) when the string does
not decode or does not decode to twelve bytes. -/
def ObjectIdHex (s : String) : Option ObjectId :=
  match DecodeString s with
  | some d => if d.length ≠ 12 then none else some d
  | none => none

/-- The method ObjectId.Hex: `hex.EncodeToString([]byte(id))`. -/
def Hex (id : ObjectId) : String := EncodeToString id

/-- The function unicode.IsSpace: in Latin-1 the characters tab, line feed, vertical tab, form
feed, carriage return, space, U+0085 and U+00A0; above Latin-1 the White_Space table. -/
def IsSpace (r : Char) : Bool :=
  if r.toNat ≤ 0xFF then
    r.toNat = 0x09 ∨ r.toNat = 0x0A ∨ r.toNat = 0x0B ∨ r.toNat = 0x0C ∨ r.toNat = 0x0D
      ∨ r.toNat = 0x20 ∨ r.toNat = 0x85 ∨ r.toNat = 0xA0
  else
    r.toNat = 0x1680 ∨ (0x2000 ≤ r.toNat ∧ r.toNat ≤ 0x200A) ∨ r.toNat = 0x2028
      ∨ r.toNat = 0x2029 ∨ r.toNat = 0x202F ∨ r.toNat = 0x205F ∨ r.toNat = 0x3000

/-- The function strings.TrimSpace: the string without its leading and trailing white space. -/
def TrimSpace (s : String) : String :=
  String.mk ((s.data.dropWhile IsSpace).reverse.dropWhile IsSpace).reverse

-- ---------------------------------------------------------------------------
-- Data model (main.go, lines 36-50)
-- ---------------------------------------------------------------------------

/-- An instant (Go time.Time) in nanoseconds since the Unix epoch. -/
abbrev Time := Int

/-- The zero value `time.Time{}`: January 1 of year 1, 00:00:00 UTC. -/
def zeroTime : Time := -62135596800000000000

/-- The struct `todoModel`: an item as exchanged with the database (bson tags `_id`, `title`,
`completed`, `createAt`). -/
structure todoModel where
  ID : ObjectId
  Title : String
  Completed : Bool
  CreatedAt : Time
deriving DecidableEq, Repr

/-- The struct `todo`: an item as exchanged with the front end (json tags `id`, `title`,
`completed`, `created_at`). -/
structure todo where
  ID : String
  Title : String
  Completed : Bool
  CreatedAt : Time
deriving DecidableEq, Repr

-- ---------------------------------------------------------------------------
-- The storage collaborator: a MongoDB collection reached through mgo
-- ---------------------------------------------------------------------------

/-- An error value of the program: the error of the JSON decoder, mgo.ErrNotFound, the
duplicate key error (E11000) of the server, or a failure of the session (socket, time-out). -/
inductive Error where
  | json (msg : String)
  | ErrNotFound
  | duplicateKey
  | session (msg : String)
deriving DecidableEq, Repr

/-- A BSON value of the kinds this program stores: string, boolean, UTC datetime (milliseconds
since the Unix epoch). -/
inductive BVal where
  | str (s : String)
  | bool (b : Bool)
  | datetime (ms : Int)
deriving DecidableEq, Repr

/-- A stored document: its `_id` and its other fields by key. -/
structure Doc where
  id : ObjectId
  fields : List (String × BVal)
deriving DecidableEq, Repr

/-- The collection `todo` of database `demo_todo`: its documents in natural order. -/
abbrev Collection := List Doc

/-- BSON encoding of a `todoModel` (bson.Marshal through the struct tags). A time.Time `t` is
written as the datetime `t.Unix()*1000 + t.Nanosecond()/1e6`. The `omitempty` of `_id` only
drops an empty ID, which createTodo never passes. -/
def Marshal (tm : todoModel) : Doc :=
  { id := tm.ID
    fields := [("title", .str tm.Title), ("completed", .bool tm.Completed),
      ("createAt", .datetime ((tm.CreatedAt / 1000000000) * 1000
        + (tm.CreatedAt % 1000000000) / 1000000))] }

/-- One element of a document read into a `todoModel` (bson decoding into a struct): the field
with the matching tag is set when the value has its kind, any other element is dropped. A
datetime of `ms` milliseconds is read as the instant `time.Unix(ms/1e3, ms%1e3*1e6)`. -/
def setField (tm : todoModel) (kv : String × BVal) : todoModel :=
  match kv with
  | (key, .str s) => if key = "title" then { tm with Title := s } else tm
  | (key, .bool b) => if key = "completed" then { tm with Completed := b } else tm
  | (key, .datetime ms) => if key = "createAt" then { tm with CreatedAt := ms * 1000000 } else tm

/-- BSON decoding of a stored document into a fresh `todoModel`: fields the document lacks
keep their zero value. -/
def Unmarshal (d : Doc) : todoModel :=
  d.fields.foldl setField { ID := d.id, Title := "", Completed := false, CreatedAt := zeroTime }

/-- The ids of the stored documents. -/
def ids (c : Collection) : List ObjectId := c.map Doc.id

/-- The method Collection.Insert (session in safe mode, the default of mgo.Dial): the document
is added unless the session fails or the unique index on `_id` rejects it. -/
def Insert (fault : Option String) (c : Collection) (d : Doc) : Except Error Collection :=
  match fault with
  | some msg => .error (.session msg)
  | none => if d.id ∈ ids c then .error .duplicateKey else .ok (c ++ [d])

/-- The first document with the given `_id` gets the given fields in place of its own. -/
def replaceFirst (sel : ObjectId) (upd : List (String × BVal)) : Collection → Collection
  | [] => []
  | d :: ds => if d.id = sel then { d with fields := upd } :: ds else d :: replaceFirst sel upd ds

/-- The method Collection.Update with selector `bson.M{"_id": sel}` and an update document
without `$` operators, which MongoDB takes as a replacement document: the first matching
document keeps its `_id` and has exactly the fields of the update document afterwards. When no
document matches, the result is mgo.ErrNotFound. -/
def Update (fault : Option String) (c : Collection) (sel : ObjectId)
    (upd : List (String × BVal)) : Except Error Collection :=
  match fault with
  | some msg => .error (.session msg)
  | none => if sel ∈ ids c then .ok (replaceFirst sel upd c) else .error .ErrNotFound

/-- The collection without the first document that has the given `_id`. -/
def removeFirst (id : ObjectId) : Collection → Collection
  | [] => []
  | d :: ds => if d.id = id then ds else d :: removeFirst id ds

/-- The method Collection.RemoveId: removes the single document with that `_id`; when there is
none, the result is mgo.ErrNotFound. -/
def RemoveId (fault : Option String) (c : Collection) (id : ObjectId) : Except Error Collection :=
  match fault with
  | some msg => .error (.session msg)
  | none => if id ∈ ids c then .ok (removeFirst id c) else .error .ErrNotFound

/-- The query `Find(bson.M{}).All(&todos)`: every document, decoded, in natural order. -/
def FindAll (fault : Option String) (c : Collection) : Except Error (List todoModel) :=
  match fault with
  | some msg => .error (.session msg)
  | none => .ok (c.map Unmarshal)

-- ---------------------------------------------------------------------------
-- Requests, responses, handlers (main.go, lines 67-219)
-- ---------------------------------------------------------------------------

/-- The status constant http.StatusOK. -/
abbrev StatusOK : Nat := 200
/-- The status constant http.StatusCreated. -/
abbrev StatusCreated : Nat := 201
/-- The status constant http.StatusBadRequest. -/
abbrev StatusBadRequest : Nat := 400
/-- The status constant http.StatusProcessing. -/
abbrev StatusProcessing : Nat := 102

/-- A value stored under a key of a `renderer.M`. -/
inductive Value where
  | str (s : String)
  | err (e : Error)
  | todoList (l : List todo)
deriving DecidableEq, Repr

/-- The value handed to `rnd.JSON`: a `renderer.M` (keys with their values) or a bare error. -/
inductive Rendered where
  | M (fields : List (String × Value))
  | err (e : Error)
deriving DecidableEq, Repr

/-- What a handler does to its ResponseWriter: one call `rnd.JSON(w, status, v)`, or a panic
before any response is written. -/
inductive Response where
  | JSON (status : Nat) (v : Rendered)
  | panicked
deriving DecidableEq, Repr

/-- Calls a handler makes on its collaborators, in program order: the decoding of the request
body and the operations on the collection. -/
inductive Effect where
  | decodeBody
  | insert (doc : Doc)
  | update (selector : ObjectId) (update : List (String × BVal))
  | removeId (id : ObjectId)
  | findAll
deriving DecidableEq, Repr

/-- What a handler reads from a request: the path parameter `chi.URLParam(r, "id")` and the
body, given by what `json.NewDecoder(r.Body).Decode(&t)` makes of it: the decoded `todo`
(absent fields at their zero value) or the message of the decoding error. -/
structure Request where
  id : String
  Body : Except String todo

/-- What a call reads from outside the program: the value of `bson.NewObjectId()` (always
twelve bytes), the clock `time.Now()`, and whether the storage call of this request fails in
the session. -/
structure Env where
  NewObjectId : ObjectId
  NewObjectId_len : NewObjectId.length = 12
  Now : Time
  fault : Option String

/-- The result of running a handler: the response, the collection afterwards, the calls made. -/
structure Outcome where
  response : Response
  db : Collection
  log : List Effect
deriving DecidableEq, Repr

/-- The handler createTodo (main.go, lines 67-106). -/
def createTodo (env : Env) (r : Request) (db : Collection) : Outcome :=
  match r.Body with
  | .error err => ⟨.JSON StatusProcessing (.err (.json err)), db, [.decodeBody]⟩
  | .ok t =>
    if t.Title = "" then
      ⟨.JSON StatusBadRequest (.M [("message", .str "The title field is requried")]), db,
        [.decodeBody]⟩
    else
      let tm : todoModel :=
        { ID := env.NewObjectId, Title := t.Title, Completed := false, CreatedAt := env.Now }
      match Insert env.fault db (Marshal tm) with
      | .error err =>
        ⟨.JSON StatusProcessing (.M [("message", .str "Failed to save todo"), ("error", .err err)]),
          db, [.decodeBody, .insert (Marshal tm)]⟩
      | .ok db' =>
        ⟨.JSON StatusCreated
            (.M [("message", .str "Todo created successfully"), ("todo_id", .str (Hex tm.ID))]),
          db', [.decodeBody, .insert (Marshal tm)]⟩

/-- The handler updateTodo (main.go, lines 108-158). -/
def updateTodo (env : Env) (r : Request) (db : Collection) : Outcome :=
  let id := TrimSpace r.id
  if !IsObjectIdHex id then
    ⟨.JSON StatusBadRequest (.M [("message", .str "The id is invalid")]), db, []⟩
  else
    match r.Body with
    | .error err => ⟨.JSON StatusProcessing (.err (.json err)), db, [.decodeBody]⟩
    | .ok t =>
      if t.Title = "" then
        ⟨.JSON StatusBadRequest (.M [("message", .str "The title field is requried")]), db,
          [.decodeBody]⟩
      else
        match ObjectIdHex id with
        | none => ⟨.panicked, db, [.decodeBody]⟩
        | some oid =>
          let upd : List (String × BVal) :=
            [("title", .str t.Title), ("completed", .bool t.Completed)]
          match Update env.fault db oid upd with
          | .error err =>
            ⟨.JSON StatusProcessing
                (.M [("message", .str "Failed to update todo"), ("error", .err err)]),
              db, [.decodeBody, .update oid upd]⟩
          | .ok db' =>
            ⟨.JSON StatusOK (.M [("message", .str "Todo updated successfully")]), db',
              [.decodeBody, .update oid upd]⟩

/-- The wire form of a stored item, as built in the loop of fetchTodos. -/
def toWire (t : todoModel) : todo :=
  { ID := Hex t.ID, Title := t.Title, Completed := t.Completed, CreatedAt := t.CreatedAt }

/-- The handler fetchTodos (main.go, lines 160-187). -/
def fetchTodos (env : Env) (_r : Request) (db : Collection) : Outcome :=
  match FindAll env.fault db with
  | .error err =>
    ⟨.JSON StatusProcessing (.M [("message", .str "Failed to fetch todo"), ("error", .err err)]),
      db, [.findAll]⟩
  | .ok todos =>
    let todoList : List todo := todos.foldl (fun acc t => acc ++ [toWire t]) []
    ⟨.JSON StatusOK (.M [("data", .todoList todoList)]), db, [.findAll]⟩

/-- The handler deleteTodo (main.go, lines 189-219). -/
def deleteTodo (env : Env) (r : Request) (db : Collection) : Outcome :=
  let id := TrimSpace r.id
  if !IsObjectIdHex id then
    ⟨.JSON StatusBadRequest (.M [("message", .str "The id is invalid")]), db, []⟩
  else
    match ObjectIdHex id with
    | none => ⟨.panicked, db, []⟩
    | some oid =>
      match RemoveId env.fault db oid with
      | .error err =>
        ⟨.JSON StatusProcessing
            (.M [("message", .str "Failed to delete todo"), ("error", .err err)]),
          db, [.removeId oid]⟩
      | .ok db' =>
        ⟨.JSON StatusOK (.M [("message", .str "Todo deleted successfully")]), db',
          [.removeId oid]⟩

/-- The `data` list of a response of fetchTodos, `none` when the response carries none. -/
def dataOf : Response → Option (List todo)
  | .JSON _ (.M [("data", .todoList l)]) => some l
  | _ => none

/-- The invariant of the data model: every stored item has a title that is not empty and no
two stored items share an id. -/
def Inv (db : Collection) : Prop :=
  (∀ d ∈ db, (Unmarshal d).Title ≠ "") ∧ (ids db).Nodup

-- ---------------------------------------------------------------------------
-- A concrete scenario, used to evaluate the handlers
-- ---------------------------------------------------------------------------

/-- A twelve-byte object id, in hex 5f0102030405060708090aab. -/
def sampleId : ObjectId := [0x5f, 1, 2, 3, 4, 5, 6, 7, 8, 9, 10, 0xab]

/-- An environment that hands out `sampleId`, with a working session. -/
def sampleEnv : Env :=
  { NewObjectId := sampleId, NewObjectId_len := by decide, Now := 1700000000123456789,
    fault := none }

/-- A collection holding one item, created with id `sampleId`. -/
def sampleDb : Collection :=
  [Marshal { ID := sampleId, Title := "buy milk", Completed := false,
             CreatedAt := 1700000000123456789 }]

/-- A request without path parameter whose body is `{"title": title, "completed": completed}`. -/
def bodyRequest (title : String) (completed : Bool) : Request :=
  { id := "", Body := .ok { ID := "", Title := title, Completed := completed,
                            CreatedAt := zeroTime } }

/-- A request with path parameter `id` whose body is `{"title": title, "completed": completed}`. -/
def idRequest (id : String) (title : String) (completed : Bool) : Request :=
  { id := id, Body := .ok { ID := "", Title := title, Completed := completed,
                            CreatedAt := zeroTime } }

/-- A request with path parameter `id` whose body is not well-formed JSON. -/
def badBodyRequest (id : String) : Request :=
  { id := id, Body := .error "unexpected EOF" }

-- ---------------------------------------------------------------------------
-- Hex encoding of object ids
-- ---------------------------------------------------------------------------

theorem fromHexChar_hexDigit : ∀ n : Fin 16, fromHexChar (hexDigit n.val) = some n.val := by
  decide

set_option maxRecDepth 100000 in
theorem nibbles_join : ∀ v : Byte,
    (((v.val >>> 4) <<< 4) ||| (v.val &&& 0x0f)) % 256 = v.val := by
  decide

theorem hexDigit_not_space : ∀ n : Fin 16, IsSpace (hexDigit n.val) = false := by
  decide

theorem hexDigit_utf8Size : ∀ n : Fin 16, (hexDigit n.val).utf8Size = 1 := by
  decide

theorem hexDigit_mem : ∀ n : Fin 16, hexDigit n.val ∈ hextable.data := by
  decide

theorem hi_lt (v : Byte) : v.val >>> 4 < 16 := by
  have := v.isLt
  simp only [Nat.shiftRight_eq_div_pow]
  omega

theorem lo_lt (v : Byte) : v.val &&& 0x0f < 16 :=
  Nat.lt_of_le_of_lt Nat.and_le_right (by decide)

theorem decodePairs_encodeByte (v : Byte) (rest : List Char) :
    decodePairs (encodeByte v ++ rest) = (decodePairs rest).map (v :: ·) := by
  have e1 := fromHexChar_hexDigit ⟨_, hi_lt v⟩
  have e2 := fromHexChar_hexDigit ⟨_, lo_lt v⟩
  simp only at e1 e2
  simp only [encodeByte, List.cons_append, List.nil_append]
  rw [decodePairs, e1, e2]
  cases h : decodePairs rest with
  | none => simp
  | some out =>
    simp only [Option.map_some', Option.some.injEq, List.cons.injEq, and_true]
    exact Fin.ext (nibbles_join v)

theorem Hex_data (id : ObjectId) : (Hex id).data = id.flatMap encodeByte := rfl

theorem decodePairs_flatMap (id : ObjectId) : decodePairs (id.flatMap encodeByte) = some id := by
  induction id with
  | nil => rfl
  | cons v vs ih =>
    rw [List.flatMap_cons, decodePairs_encodeByte, ih]
    rfl

theorem DecodeString_Hex (id : ObjectId) : DecodeString (Hex id) = some id := by
  rw [DecodeString, Hex_data, decodePairs_flatMap]

theorem Hex_injective {a b : ObjectId} (h : Hex a = Hex b) : a = b := by
  have ha := DecodeString_Hex a
  rw [h, DecodeString_Hex b] at ha
  exact (Option.some.inj ha).symm

theorem Hex_length (id : ObjectId) : (Hex id).data.length = 2 * id.length := by
  rw [Hex_data]
  induction id with
  | nil => rfl
  | cons v vs ih =>
    rw [List.flatMap_cons, List.length_append, ih, List.length_cons]
    simp only [encodeByte, List.length_cons, List.length_nil]
    omega

theorem mem_encodeByte {c : Char} {v : Byte} (h : c ∈ encodeByte v) :
    ∃ n : Fin 16, c = hexDigit n.val := by
  simp only [encodeByte, List.mem_cons, List.mem_singleton, List.not_mem_nil, or_false] at h
  rcases h with h | h
  · exact ⟨⟨_, hi_lt v⟩, h⟩
  · exact ⟨⟨_, lo_lt v⟩, h⟩

theorem mem_Hex {c : Char} {id : ObjectId} (h : c ∈ (Hex id).data) :
    ∃ n : Fin 16, c = hexDigit n.val := by
  rw [Hex_data, List.mem_flatMap] at h
  obtain ⟨v, _, hv⟩ := h
  exact mem_encodeByte hv

theorem utf8ByteSize_go_ascii (cs : List Char) (h : ∀ c ∈ cs, c.utf8Size = 1) :
    String.utf8ByteSize.go cs = cs.length := by
  induction cs with
  | nil => rfl
  | cons c cs ih =>
    rw [String.utf8ByteSize.go, ih (fun x hx => h x (List.mem_cons_of_mem _ hx)),
      h c (List.mem_cons_self _ _), List.length_cons]

theorem len_ascii (s : String) (h : ∀ c ∈ s.data, c.utf8Size = 1) : len s = s.data.length := by
  cases s with
  | mk cs => exact utf8ByteSize_go_ascii cs h

theorem len_Hex (id : ObjectId) : len (Hex id) = 2 * id.length := by
  rw [len_ascii, Hex_length]
  intro c hc
  obtain ⟨n, rfl⟩ := mem_Hex hc
  exact hexDigit_utf8Size n

theorem fromHexChar_ascii {c : Char} {a : Nat} (h : fromHexChar c = some a) : c.utf8Size = 1 := by
  have hc : c.toNat ≤ 127 := by
    unfold fromHexChar at h
    split_ifs at h <;> omega
  have : c.val ≤ 0x7F := by
    rw [UInt32.le_def]
    exact hc
  simp [Char.utf8Size, this]

theorem decodePairs_spec : ∀ (cs : List Char) (d : List Byte), decodePairs cs = some d →
    cs.length = 2 * d.length ∧ ∀ c ∈ cs, c.utf8Size = 1
  | [], d, h => by
    simp only [decodePairs, Option.some.injEq] at h
    subst h
    simp
  | [_], d, h => by simp [decodePairs] at h
  | p :: q :: rest, d, h => by
    rw [decodePairs] at h
    cases hp : fromHexChar p with
    | none => simp [hp] at h
    | some a =>
      cases hq : fromHexChar q with
      | none => simp [hp, hq] at h
      | some b =>
        cases hr : decodePairs rest with
        | none => simp [hp, hq, hr] at h
        | some out =>
          simp only [hp, hq, hr, Option.some.injEq] at h
          subst h
          obtain ⟨h1, h2⟩ := decodePairs_spec rest out hr
          refine ⟨by simp only [List.length_cons]; omega, ?_⟩
          intro c hc
          simp only [List.mem_cons] at hc
          rcases hc with rfl | rfl | hc
          · exact fromHexChar_ascii hp
          · exact fromHexChar_ascii hq
          · exact h2 c hc

theorem IsObjectIdHex_iff (s : String) :
    IsObjectIdHex s = true ↔ ∃ oid, ObjectIdHex s = some oid := by
  unfold IsObjectIdHex ObjectIdHex
  cases hd : DecodeString s with
  | none => simp
  | some d =>
    obtain ⟨h1, h2⟩ := decodePairs_spec s.data d hd
    have hl : len s = 2 * d.length := by rw [len_ascii s h2, h1]
    by_cases h12 : d.length = 12
    · simp [hl, h12]
    · have : ¬ (2 * d.length = 24) := by omega
      simp [hl, h12, this]

theorem decodePairs_isSome_iff : ∀ (cs : List Char),
    (decodePairs cs).isSome = true ↔ cs.length % 2 = 0 ∧ ∀ c ∈ cs, (fromHexChar c).isSome = true
  | [] => by simp [decodePairs]
  | [_] => by simp [decodePairs]
  | p :: q :: rest => by
    have ih := decodePairs_isSome_iff rest
    rw [decodePairs]
    cases hp : fromHexChar p with
    | none => simp [hp]
    | some a =>
      cases hq : fromHexChar q with
      | none => simp [hq]
      | some b =>
        cases hr : decodePairs rest with
        | none =>
          rw [hr] at ih
          simp only [Option.isSome_none, Bool.false_eq_true, false_iff, not_and] at ih ⊢
          intro hlen hall
          refine ih (by simp only [List.length_cons] at hlen; omega) ?_
          intro c hc
          exact hall c (List.mem_cons_of_mem _ (List.mem_cons_of_mem _ hc))
        | some out =>
          rw [hr] at ih
          have ih' := ih.mp rfl
          simp only [Option.isSome_some, true_iff]
          refine ⟨by simp only [List.length_cons]; omega, ?_⟩
          intro c hc
          simp only [List.mem_cons] at hc
          rcases hc with rfl | rfl | hc
          · simp [hp]
          · simp [hq]
          · exact ih'.2 c hc

theorem IsObjectIdHex_iff_chars (s : String) :
    IsObjectIdHex s = true ↔
      s.data.length = 24 ∧ ∀ c ∈ s.data, (fromHexChar c).isSome = true := by
  constructor
  · intro h
    obtain ⟨i, hi⟩ := (IsObjectIdHex_iff s).mp h
    unfold ObjectIdHex at hi
    cases hd : DecodeString s with
    | none => simp [hd] at hi
    | some d =>
      rw [hd] at hi
      have h12 : d.length = 12 := by
        by_contra hne
        simp [hne] at hi
      obtain ⟨h1, _⟩ := decodePairs_spec s.data d hd
      have hsome : (decodePairs s.data).isSome = true := by
        unfold DecodeString at hd
        rw [hd]; rfl
      exact ⟨by omega, ((decodePairs_isSome_iff s.data).mp hsome).2⟩
  · intro ⟨hlen, hall⟩
    have hascii : ∀ c ∈ s.data, c.utf8Size = 1 := by
      intro c hc
      obtain ⟨a, ha⟩ := Option.isSome_iff_exists.mp (hall c hc)
      exact fromHexChar_ascii ha
    have hdec : (DecodeString s).isSome = true :=
      (decodePairs_isSome_iff s.data).mpr ⟨by omega, hall⟩
    simp [IsObjectIdHex, len_ascii s hascii, hlen, hdec]

theorem dropWhile_all_false {p : Char → Bool} (l : List Char) (h : ∀ c ∈ l, p c = false) :
    l.dropWhile p = l := by
  cases l with
  | nil => rfl
  | cons c cs => rw [List.dropWhile_cons, h c (List.mem_cons_self _ _)]; rfl

theorem TrimSpace_Hex (id : ObjectId) : TrimSpace (Hex id) = Hex id := by
  have hs : ∀ c ∈ (Hex id).data, IsSpace c = false := by
    intro c hc
    obtain ⟨n, rfl⟩ := mem_Hex hc
    exact hexDigit_not_space n
  unfold TrimSpace
  rw [dropWhile_all_false _ hs,
    dropWhile_all_false _ (fun c hc => hs c (List.mem_reverse.mp hc)), List.reverse_reverse]

theorem ObjectIdHex_Hex (id : ObjectId) (h : id.length = 12) : ObjectIdHex (Hex id) = some id := by
  simp [ObjectIdHex, DecodeString_Hex, h]

theorem IsObjectIdHex_Hex (id : ObjectId) (h : id.length = 12) : IsObjectIdHex (Hex id) = true :=
  (IsObjectIdHex_iff _).mpr ⟨id, ObjectIdHex_Hex id h⟩

-- ---------------------------------------------------------------------------
-- The collection operations
-- ---------------------------------------------------------------------------

theorem foldl_toWire (todos : List todoModel) (acc : List todo) :
    todos.foldl (fun acc t => acc ++ [toWire t]) acc = acc ++ todos.map toWire := by
  induction todos generalizing acc with
  | nil => simp
  | cons t ts ih => simp [ih]

theorem setField_ID (tm : todoModel) (kv : String × BVal) : (setField tm kv).ID = tm.ID := by
  obtain ⟨key, v⟩ := kv
  cases v <;> simp only [setField] <;> split_ifs <;> rfl

theorem foldl_setField_ID (fs : List (String × BVal)) (tm : todoModel) :
    (fs.foldl setField tm).ID = tm.ID := by
  induction fs generalizing tm with
  | nil => rfl
  | cons kv fs ih => rw [List.foldl_cons, ih, setField_ID]

theorem Unmarshal_ID (d : Doc) : (Unmarshal d).ID = d.id := foldl_setField_ID _ _

theorem Unmarshal_Marshal (tm : todoModel) :
    Unmarshal (Marshal tm) =
      { tm with CreatedAt := ((tm.CreatedAt / 1000000000) * 1000
          + (tm.CreatedAt % 1000000000) / 1000000) * 1000000 } := by
  simp [Unmarshal, Marshal, setField]

theorem Unmarshal_update (id : ObjectId) (title : String) (completed : Bool) :
    Unmarshal { id := id, fields := [("title", .str title), ("completed", .bool completed)] } =
      { ID := id, Title := title, Completed := completed, CreatedAt := zeroTime } := by
  simp [Unmarshal, setField]

theorem ids_append (c : Collection) (d : Doc) : ids (c ++ [d]) = ids c ++ [d.id] := by
  simp [ids]

theorem ids_replaceFirst (sel : ObjectId) (upd : List (String × BVal)) (c : Collection) :
    ids (replaceFirst sel upd c) = ids c := by
  induction c with
  | nil => rfl
  | cons d ds ih =>
    unfold replaceFirst
    split_ifs with h
    · rfl
    · simp only [ids, List.map_cons, List.cons.injEq, true_and] at ih ⊢
      exact ih

theorem mem_replaceFirst {sel : ObjectId} {upd : List (String × BVal)} {c : Collection} {d : Doc}
    (h : d ∈ replaceFirst sel upd c) : d ∈ c ∨ d = { id := sel, fields := upd } := by
  induction c with
  | nil => simp [replaceFirst] at h
  | cons e es ih =>
    unfold replaceFirst at h
    split_ifs at h with he
    · rcases List.mem_cons.mp h with h | h
      · right; rw [h, he]
      · left; exact List.mem_cons_of_mem _ h
    · rcases List.mem_cons.mp h with h | h
      · left; rw [h]; exact List.mem_cons_self _ _
      · rcases ih h with h | h
        · left; exact List.mem_cons_of_mem _ h
        · right; exact h

theorem removeFirst_sublist (i : ObjectId) (c : Collection) : (removeFirst i c).Sublist c := by
  induction c with
  | nil => exact List.Sublist.refl _
  | cons d ds ih =>
    unfold removeFirst
    split_ifs
    · exact List.sublist_cons_self _ _
    · exact ih.cons₂ _

theorem removeFirst_eq_filter (i : ObjectId) (c : Collection) (h : (ids c).Nodup) :
    removeFirst i c = c.filter (fun d => decide (d.id ≠ i)) := by
  induction c with
  | nil => rfl
  | cons d ds ih =>
    have hnd : (ids ds).Nodup := (List.nodup_cons.mp h).2
    have hd : d.id ∉ ids ds := (List.nodup_cons.mp h).1
    unfold removeFirst
    split_ifs with he
    · subst he
      rw [List.filter_cons_of_neg (by simp)]
      symm
      rw [List.filter_eq_self]
      intro e hee
      have : e.id ≠ d.id := fun hh => hd (hh ▸ List.mem_map_of_mem Doc.id hee)
      simpa using this
    · rw [List.filter_cons_of_pos (by simpa using he), ih hnd]

-- ---------------------------------------------------------------------------
-- The handlers
-- ---------------------------------------------------------------------------

theorem fetchTodos_ok (env : Env) (r : Request) (db : Collection) (h : env.fault = none) :
    fetchTodos env r db =
      ⟨.JSON StatusOK (.M [("data", .todoList ((db.map Unmarshal).map toWire))]), db,
        [.findAll]⟩ := by
  simp [fetchTodos, FindAll, h, foldl_toWire]

/-- Claim C1: a create request whose body decodes to a title that is not empty, on a store
where the insert succeeds, is answered 201 with `todo_id` the hex form of an id that no stored
document had before the call; a following fetchTodos lists an item with that id, the
submitted title and completed=false, whatever `completed` the body carried. -/
theorem createTodo_fresh_id_listed (env : Env) (r : Request) (db db' : Collection) (t : todo)
    (hbody : r.Body = .ok t) (htitle : t.Title ≠ "")
    (hins : Insert env.fault db
      (Marshal { ID := env.NewObjectId, Title := t.Title, Completed := false,
                 CreatedAt := env.Now }) = .ok db') :
    (createTodo env r db).response = .JSON 201
        (.M [("message", .str "Todo created successfully"),
             ("todo_id", .str (Hex env.NewObjectId))])
      ∧ env.NewObjectId ∉ ids db
      ∧ (∀ d ∈ db, Hex d.id ≠ Hex env.NewObjectId)
      ∧ ∀ (env2 : Env) (r2 : Request), env2.fault = none →
          ∃ l, (fetchTodos env2 r2 (createTodo env r db).db).response
                = .JSON 200 (.M [("data", .todoList l)])
            ∧ ∃ w ∈ l, w.ID = Hex env.NewObjectId ∧ w.Title = t.Title ∧ w.Completed = false := by
  have hfresh : env.NewObjectId ∉ ids db := by
    intro hmem
    cases hf : env.fault with
    | some msg => simp [Insert, hf] at hins
    | none =>
      simp only [Insert, hf, Marshal] at hins
      rw [if_pos hmem] at hins
      cases hins
  have hdb : (createTodo env r db).db = db' := by
    simp only [createTodo, hbody, if_neg htitle, hins]
  have hdb' : db' = db ++ [Marshal { ID := env.NewObjectId, Title := t.Title, Completed := false,
                                     CreatedAt := env.Now }] := by
    cases hf : env.fault with
    | some msg => simp [Insert, hf] at hins
    | none =>
      simp only [Insert, hf] at hins
      split_ifs at hins
      exact (Except.ok.inj hins).symm
  refine ⟨?_, hfresh, ?_, ?_⟩
  · simp only [createTodo, hbody, if_neg htitle, hins]
  · intro d hd heq
    exact hfresh (Hex_injective heq ▸ List.mem_map_of_mem Doc.id hd)
  · intro env2 r2 h2
    rw [hdb, fetchTodos_ok env2 r2 db' h2]
    refine ⟨_, rfl, ?_⟩
    refine ⟨toWire (Unmarshal (Marshal ⟨env.NewObjectId, t.Title, false, env.Now⟩)), ?_, ?_⟩
    · rw [hdb']
      simp
    · rw [Unmarshal_Marshal]
      exact ⟨rfl, rfl, rfl⟩

/-- Witness of C1: creating "buy milk" (the body asking for completed=true) on the empty
store. -/
theorem createTodo_fresh_id_listed_witness :
    (bodyRequest "buy milk" true).Body
        = .ok { ID := "", Title := "buy milk", Completed := true, CreatedAt := zeroTime }
      ∧ "buy milk" ≠ ""
      ∧ Insert sampleEnv.fault []
          (Marshal { ID := sampleEnv.NewObjectId, Title := "buy milk", Completed := false,
                     CreatedAt := sampleEnv.Now }) = .ok sampleDb
      ∧ (createTodo sampleEnv (bodyRequest "buy milk" true) []).response = .JSON 201
          (.M [("message", .str "Todo created successfully"),
               ("todo_id", .str (Hex sampleEnv.NewObjectId))])
      ∧ sampleEnv.NewObjectId ∉ ids [] :=
  have h := createTodo_fresh_id_listed sampleEnv (bodyRequest "buy milk" true) [] sampleDb
    { ID := "", Title := "buy milk", Completed := true, CreatedAt := zeroTime }
    rfl (by decide) rfl
  ⟨rfl, by decide, rfl, h.1, h.2.1⟩

/-- Claim C2: a create request whose decoded title is empty (or absent, which decodes to the
empty string) gets the validation failure 400 "The title field is requried"; the only call
made is the decoding of the body, no insert is issued and the store is as it was. -/
theorem createTodo_empty_title_rejected (env : Env) (r : Request) (db : Collection) (t : todo)
    (hbody : r.Body = .ok t) (htitle : t.Title = "") :
    createTodo env r db =
      ⟨.JSON 400 (.M [("message", .str "The title field is requried")]), db, [.decodeBody]⟩ := by
  simp only [createTodo, hbody, if_pos htitle]

/-- Witness of C2: the body `{"completed": true}` on a store with one item. -/
theorem createTodo_empty_title_rejected_witness :
    createTodo sampleEnv (bodyRequest "" true) sampleDb =
      ⟨.JSON 400 (.M [("message", .str "The title field is requried")]), sampleDb,
        [.decodeBody]⟩ :=
  createTodo_empty_title_rejected sampleEnv (bodyRequest "" true) sampleDb _ rfl rfl

/-- Claim C3: when the trimmed path parameter is not a valid object id (24 hex characters),
the validity check IsObjectIdHex fails, and updateTodo and deleteTodo both answer 400 "The
id is invalid", whatever the body; they make no call at all (the body is not decoded, no
storage operation is issued) and the store is as it was. -/
theorem invalid_id_rejected (env : Env) (r : Request) (db : Collection)
    (hid : ¬ ((TrimSpace r.id).data.length = 24
      ∧ ∀ c ∈ (TrimSpace r.id).data, (fromHexChar c).isSome = true)) :
    IsObjectIdHex (TrimSpace r.id) = false
      ∧ updateTodo env r db = ⟨.JSON 400 (.M [("message", .str "The id is invalid")]), db, []⟩
      ∧ deleteTodo env r db = ⟨.JSON 400 (.M [("message", .str "The id is invalid")]), db, []⟩ := by
  have hv : IsObjectIdHex (TrimSpace r.id) = false := by
    cases h : IsObjectIdHex (TrimSpace r.id) with
    | false => rfl
    | true => exact absurd ((IsObjectIdHex_iff_chars _).mp h) hid
  refine ⟨hv, ?_, ?_⟩
  · simp [updateTodo, hv]
  · simp [deleteTodo, hv]

/-- Witness of C3: an id of 23 hex digits, padded with blanks, with a malformed body. -/
theorem invalid_id_rejected_witness :
    ¬ ((TrimSpace " 5f0102030405060708090aa ").data.length = 24
        ∧ ∀ c ∈ (TrimSpace " 5f0102030405060708090aa ").data, (fromHexChar c).isSome = true)
      ∧ IsObjectIdHex (TrimSpace " 5f0102030405060708090aa ") = false
      ∧ updateTodo sampleEnv (badBodyRequest " 5f0102030405060708090aa ") sampleDb
          = ⟨.JSON 400 (.M [("message", .str "The id is invalid")]), sampleDb, []⟩
      ∧ deleteTodo sampleEnv (badBodyRequest " 5f0102030405060708090aa ") sampleDb
          = ⟨.JSON 400 (.M [("message", .str "The id is invalid")]), sampleDb, []⟩ :=
  ⟨by decide, invalid_id_rejected sampleEnv (badBodyRequest " 5f0102030405060708090aa ") sampleDb
    (by decide)⟩

theorem valid_of_ObjectIdHex {s : String} {i : ObjectId} (h : ObjectIdHex s = some i) :
    IsObjectIdHex s = true :=
  (IsObjectIdHex_iff s).mpr ⟨i, h⟩

theorem deleteTodo_run (env : Env) (r : Request) (db : Collection) (i : ObjectId)
    (hid : ObjectIdHex (TrimSpace r.id) = some i) :
    deleteTodo env r db =
      match RemoveId env.fault db i with
      | .error err =>
        ⟨.JSON 102 (.M [("message", .str "Failed to delete todo"), ("error", .err err)]), db,
          [.removeId i]⟩
      | .ok db' =>
        ⟨.JSON 200 (.M [("message", .str "Todo deleted successfully")]), db', [.removeId i]⟩ := by
  simp only [deleteTodo, valid_of_ObjectIdHex hid, hid, Bool.not_true, Bool.false_eq_true,
    if_false]

theorem updateTodo_run (env : Env) (r : Request) (db : Collection) (i : ObjectId) (t : todo)
    (hid : ObjectIdHex (TrimSpace r.id) = some i) (hbody : r.Body = .ok t)
    (htitle : t.Title ≠ "") :
    updateTodo env r db =
      match Update env.fault db i [("title", .str t.Title), ("completed", .bool t.Completed)] with
      | .error err =>
        ⟨.JSON 102 (.M [("message", .str "Failed to update todo"), ("error", .err err)]), db,
          [.decodeBody, .update i [("title", .str t.Title), ("completed", .bool t.Completed)]]⟩
      | .ok db' =>
        ⟨.JSON 200 (.M [("message", .str "Todo updated successfully")]), db',
          [.decodeBody, .update i [("title", .str t.Title), ("completed", .bool t.Completed)]]⟩ := by
  simp only [updateTodo, valid_of_ObjectIdHex hid, hid, hbody, if_neg htitle, Bool.not_true,
    Bool.false_eq_true, if_false]

theorem wire_filter (i : ObjectId) (c : Collection) :
    ((c.filter (fun d => decide (d.id ≠ i))).map Unmarshal).map toWire
      = ((c.map Unmarshal).map toWire).filter (fun w => decide (w.ID ≠ Hex i)) := by
  induction c with
  | nil => rfl
  | cons d ds ih =>
    have hw : (toWire (Unmarshal d)).ID = Hex d.id := by
      simp only [toWire, Unmarshal_ID]
    by_cases h : d.id = i
    · have h2 : (toWire (Unmarshal d)).ID = Hex i := by rw [hw, h]
      rw [List.filter_cons_of_neg (by simpa using h), List.map_cons, List.map_cons,
        List.filter_cons_of_neg (by simpa using h2), ih]
    · have h2 : (toWire (Unmarshal d)).ID ≠ Hex i := by
        rw [hw]
        exact fun hh => h (Hex_injective hh)
      rw [List.filter_cons_of_pos (by simpa using h), List.map_cons, List.map_cons,
        List.map_cons, List.map_cons, List.filter_cons_of_pos (by simpa using h2), ih]

/-- Claim C4 (the code departs from it): on the store holding the one item created with id
5f0102030405060708090aab, title "buy milk" and createdAt 1700000000.123 s, the update with
body `{"title":"x","completed":true}` is answered 200 and the following fetchTodos shows the
item with title "x" and completed=true, but with createdAt the zero time and not the time
of creation. -/
theorem updateTodo_resets_createdAt :
    dataOf (fetchTodos sampleEnv (bodyRequest "" false) sampleDb).response
        = some [{ ID := "5f0102030405060708090aab", Title := "buy milk", Completed := false,
                  CreatedAt := 1700000000123000000 }]
      ∧ (updateTodo sampleEnv (idRequest "5f0102030405060708090aab" "x" true) sampleDb).response
        = .JSON 200 (.M [("message", .str "Todo updated successfully")])
      ∧ dataOf (fetchTodos sampleEnv (bodyRequest "" false)
          (updateTodo sampleEnv (idRequest "5f0102030405060708090aab" "x" true) sampleDb).db).response
        = some [{ ID := "5f0102030405060708090aab", Title := "x", Completed := true,
                  CreatedAt := zeroTime }]
      ∧ zeroTime ≠ 1700000000123000000 := by
  decide

/-- Claim C5: on a store (ids unique, as the `_id` index keeps them) holding an item with id
`i`, with the storage reachable, deleteTodo with id `i` answers 200; a following fetchTodos
lists exactly the items listed before whose id is not the hex form of `i`, unchanged and in
order; a second deleteTodo with the same id answers the processing-status failure "Failed to
delete todo" (with mgo.ErrNotFound when the storage is reachable) and leaves the store as
it was. -/
theorem deleteTodo_then_not_found (env env2 : Env) (r : Request) (db : Collection) (i : ObjectId)
    (hid : ObjectIdHex (TrimSpace r.id) = some i) (hmem : i ∈ ids db)
    (huniq : (ids db).Nodup) (hok : env.fault = none) :
    (deleteTodo env r db).response
        = .JSON 200 (.M [("message", .str "Todo deleted successfully")])
      ∧ (∀ (env3 : Env) (r3 : Request), env3.fault = none →
          ∃ before, dataOf (fetchTodos env3 r3 db).response = some before
            ∧ dataOf (fetchTodos env3 r3 (deleteTodo env r db).db).response
                = some (before.filter (fun w => decide (w.ID ≠ Hex i))))
      ∧ ∃ e, deleteTodo env2 r (deleteTodo env r db).db
            = ⟨.JSON 102 (.M [("message", .str "Failed to delete todo"), ("error", .err e)]),
                (deleteTodo env r db).db, [.removeId i]⟩
          ∧ (env2.fault = none → e = .ErrNotFound) := by
  have h1 : deleteTodo env r db
      = ⟨.JSON 200 (.M [("message", .str "Todo deleted successfully")]),
          db.filter (fun d => decide (d.id ≠ i)), [.removeId i]⟩ := by
    rw [deleteTodo_run env r db i hid]
    simp only [RemoveId, hok, if_pos hmem, removeFirst_eq_filter i db huniq]
  have hgone : i ∉ ids (db.filter (fun d => decide (d.id ≠ i))) := by
    simp [ids]
  refine ⟨by rw [h1], ?_, ?_⟩
  · intro env3 r3 h3
    refine ⟨(db.map Unmarshal).map toWire, ?_, ?_⟩
    · rw [fetchTodos_ok env3 r3 db h3]; rfl
    · rw [h1, fetchTodos_ok env3 r3 _ h3]
      simp only [dataOf, wire_filter]
  · rw [h1, deleteTodo_run env2 r _ i hid]
    cases hf : env2.fault with
    | some msg => exact ⟨.session msg, by simp only [RemoveId], by simp⟩
    | none => exact ⟨.ErrNotFound, by simp only [RemoveId, if_neg hgone], fun _ => rfl⟩

/-- Witness of C5: deleting the one item of the sample store, twice. -/
theorem deleteTodo_then_not_found_witness :
    ObjectIdHex (TrimSpace " 5f0102030405060708090aab ") = some sampleId
      ∧ sampleId ∈ ids sampleDb ∧ (ids sampleDb).Nodup ∧ sampleEnv.fault = none
      ∧ (deleteTodo sampleEnv (badBodyRequest " 5f0102030405060708090aab ") sampleDb).response
          = .JSON 200 (.M [("message", .str "Todo deleted successfully")]) :=
  ⟨by decide, by decide, by decide, rfl,
    (deleteTodo_then_not_found sampleEnv sampleEnv (badBodyRequest " 5f0102030405060708090aab ")
      sampleDb sampleId (by decide) (by decide) (by decide) rfl).1⟩

/-- Claim C6, as stated, fails: on the empty store the valid id 5f0102030405060708090aab
matches no item, the body is well-formed with title "x", and updateTodo answers the
processing-status failure, not the success response. -/
theorem updateTodo_missing_id_not_success :
    IsObjectIdHex (TrimSpace "5f0102030405060708090aab") = true
      ∧ ObjectIdHex (TrimSpace "5f0102030405060708090aab") = some sampleId
      ∧ sampleId ∉ ids []
      ∧ updateTodo sampleEnv (idRequest "5f0102030405060708090aab" "x" true) []
          = ⟨.JSON 102 (.M [("message", .str "Failed to update todo"),
                            ("error", .err .ErrNotFound)]), [],
              [.decodeBody, .update sampleId [("title", .str "x"), ("completed", .bool true)]]⟩
      ∧ (updateTodo sampleEnv (idRequest "5f0102030405060708090aab" "x" true) []).response
          ≠ .JSON 200 (.M [("message", .str "Todo updated successfully")]) := by
  decide

/-- Claim C6, amended: for every store, every valid id that matches no stored item and every
well-formed body with a title that is not empty, updateTodo answers the processing-status
(102) failure "Failed to update todo", carrying mgo.ErrNotFound when the storage is
reachable, after one update call for the decoded id; the store is as it was. An update
against an id that does not exist is reported as a storage failure, not as success. -/
theorem updateTodo_missing_id_fails (env : Env) (r : Request) (db : Collection) (t : todo)
    (hvalid : IsObjectIdHex (TrimSpace r.id) = true)
    (hmiss : ∀ i, ObjectIdHex (TrimSpace r.id) = some i → i ∉ ids db)
    (hbody : r.Body = .ok t) (htitle : t.Title ≠ "") :
    ∃ i e, ObjectIdHex (TrimSpace r.id) = some i
      ∧ updateTodo env r db
          = ⟨.JSON 102 (.M [("message", .str "Failed to update todo"), ("error", .err e)]), db,
              [.decodeBody,
               .update i [("title", .str t.Title), ("completed", .bool t.Completed)]]⟩
      ∧ (env.fault = none → e = .ErrNotFound) := by
  obtain ⟨i, hid⟩ := (IsObjectIdHex_iff _).mp hvalid
  rw [updateTodo_run env r db i t hid hbody htitle]
  cases hf : env.fault with
  | some msg => exact ⟨i, .session msg, hid, by simp only [Update], by simp⟩
  | none =>
    exact ⟨i, .ErrNotFound, hid, by simp only [Update, if_neg (hmiss i hid)], fun _ => rfl⟩

/-- Witness of C6 amended: the update of an id the sample store does not hold. -/
theorem updateTodo_missing_id_fails_witness :
    IsObjectIdHex (TrimSpace "5f0102030405060708090aac") = true
      ∧ (∀ i, ObjectIdHex (TrimSpace "5f0102030405060708090aac") = some i → i ∉ ids sampleDb)
      ∧ "x" ≠ ""
      ∧ ∃ i e, ObjectIdHex (TrimSpace "5f0102030405060708090aac") = some i
          ∧ updateTodo sampleEnv (idRequest "5f0102030405060708090aac" "x" true) sampleDb
            = ⟨.JSON 102 (.M [("message", .str "Failed to update todo"), ("error", .err e)]),
                sampleDb,
                [.decodeBody, .update i [("title", .str "x"), ("completed", .bool true)]]⟩
          ∧ (sampleEnv.fault = none → e = .ErrNotFound) :=
  have hdec : ObjectIdHex (TrimSpace "5f0102030405060708090aac")
      = some [0x5f, 1, 2, 3, 4, 5, 6, 7, 8, 9, 10, 0xac] := by decide
  have hmiss : ∀ i, ObjectIdHex (TrimSpace "5f0102030405060708090aac") = some i →
      i ∉ ids sampleDb := by
    intro i hi
    rw [hdec] at hi
    cases hi
    decide
  ⟨by decide, hmiss, by decide,
    updateTodo_missing_id_fails sampleEnv (idRequest "5f0102030405060708090aac" "x" true)
      sampleDb { ID := "", Title := "x", Completed := true, CreatedAt := zeroTime }
      (by decide) hmiss rfl (by decide)⟩

/-- Claim C7: for every twelve-byte object id (so for every id that create generates), the
hex form returned as `todo_id` has 24 characters, all of them lowercase hex digits; it passes
IsObjectIdHex, is left as it is by TrimSpace, and ObjectIdHex decodes it back to the same id.
So deleteTodo and updateTodo, given that string as path parameter, do not reject it and issue
their storage call for that very id. -/
theorem Hex_roundtrip (id : ObjectId) (hlen : id.length = 12) :
    len (Hex id) = 24
      ∧ (Hex id).data.length = 24
      ∧ (∀ c ∈ (Hex id).data, c ∈ "0123456789abcdef".data)
      ∧ IsObjectIdHex (Hex id) = true
      ∧ TrimSpace (Hex id) = Hex id
      ∧ IsObjectIdHex (TrimSpace (Hex id)) = true
      ∧ ObjectIdHex (Hex id) = some id
      ∧ (∀ (env : Env) (r : Request) (db : Collection), r.id = Hex id →
          (deleteTodo env r db).log = [.removeId id])
      ∧ (∀ (env : Env) (r : Request) (db : Collection) (t : todo), r.id = Hex id →
          r.Body = .ok t → t.Title ≠ "" →
          (updateTodo env r db).log
            = [.decodeBody,
               .update id [("title", .str t.Title), ("completed", .bool t.Completed)]]) := by
  have hdec := ObjectIdHex_Hex id hlen
  have htrim := TrimSpace_Hex id
  refine ⟨by rw [len_Hex, hlen], by rw [Hex_length, hlen], ?_, IsObjectIdHex_Hex id hlen, htrim,
    by rw [htrim]; exact IsObjectIdHex_Hex id hlen, hdec, ?_, ?_⟩
  · intro c hc
    obtain ⟨n, rfl⟩ := mem_Hex hc
    exact hexDigit_mem n
  · intro env r db hr
    have hid : ObjectIdHex (TrimSpace r.id) = some id := by rw [hr, htrim, hdec]
    rw [deleteTodo_run env r db id hid]
    cases RemoveId env.fault db id <;> rfl
  · intro env r db t hr hbody htitle
    have hid : ObjectIdHex (TrimSpace r.id) = some id := by rw [hr, htrim, hdec]
    rw [updateTodo_run env r db id t hid hbody htitle]
    cases Update env.fault db id _ <;> rfl

/-- Witness of C7: the sample id. -/
theorem Hex_roundtrip_witness :
    sampleId.length = 12 ∧ Hex sampleId = "5f0102030405060708090aab"
      ∧ IsObjectIdHex (Hex sampleId) = true
      ∧ ObjectIdHex (Hex sampleId) = some sampleId :=
  have h := Hex_roundtrip sampleId (by decide)
  ⟨by decide, by decide, h.2.2.2.1, h.2.2.2.2.2.2.1⟩

/-- Claim C8: on every store on which the find succeeds, fetchTodos answers 200 with a `data`
list that has one wire item per stored item, in the order the storage returned them, each
with id the hex form of the stored id and with title, completed and createdAt copied as they
are; on the empty store `data` is the empty list; the only call is the find and the store is
not modified. -/
theorem fetchTodos_lists_all (env : Env) (r : Request) (db : Collection)
    (todos : List todoModel) (hfind : FindAll env.fault db = .ok todos) :
    ∃ l, fetchTodos env r db = ⟨.JSON 200 (.M [("data", .todoList l)]), db, [.findAll]⟩
      ∧ l.length = todos.length
      ∧ todos.length = db.length
      ∧ (∀ (k : Nat) (h1 : k < l.length) (h2 : k < todos.length),
          l[k].ID = Hex todos[k].ID ∧ l[k].Title = todos[k].Title
            ∧ l[k].Completed = todos[k].Completed ∧ l[k].CreatedAt = todos[k].CreatedAt)
      ∧ (db = [] → l = []) := by
  have htodos : todos = db.map Unmarshal := by
    cases hf : env.fault with
    | some msg => simp [FindAll, hf] at hfind
    | none =>
      simp only [FindAll, hf] at hfind
      exact (Except.ok.inj hfind).symm
  refine ⟨todos.map toWire, ?_, by simp, by simp [htodos], ?_, ?_⟩
  · simp only [fetchTodos, hfind, foldl_toWire, List.nil_append]
  · intro k h1 h2
    simp [toWire]
  · intro hdb
    simp [htodos, hdb]

/-- Witness of C8: listing the sample store. -/
theorem fetchTodos_lists_all_witness :
    FindAll sampleEnv.fault sampleDb
        = .ok [{ ID := sampleId, Title := "buy milk", Completed := false,
                 CreatedAt := 1700000000123000000 }]
      ∧ ∃ l, fetchTodos sampleEnv (bodyRequest "" false) sampleDb
            = ⟨.JSON 200 (.M [("data", .todoList l)]), sampleDb, [.findAll]⟩
          ∧ l.length = 1 := by
  obtain ⟨l, h1, h2, _⟩ := fetchTodos_lists_all sampleEnv (bodyRequest "" false) sampleDb
    [{ ID := sampleId, Title := "buy milk", Completed := false,
       CreatedAt := 1700000000123000000 }] rfl
  exact ⟨rfl, l, h1, h2⟩

theorem Inv_insert {db : Collection} (tm : todoModel) (h : Inv db) (htitle : tm.Title ≠ "")
    (hfresh : tm.ID ∉ ids db) : Inv (db ++ [Marshal tm]) := by
  refine ⟨?_, ?_⟩
  · intro d hd
    rcases List.mem_append.mp hd with hd | hd
    · exact h.1 d hd
    · rw [List.mem_singleton.mp hd, Unmarshal_Marshal]
      exact htitle
  · rw [ids_append]
    exact List.Nodup.append h.2 (List.nodup_singleton _)
      (List.disjoint_singleton.mpr hfresh)

theorem Inv_replaceFirst {db : Collection} (h : Inv db) (sel : ObjectId) (title : String)
    (completed : Bool) (htitle : title ≠ "") :
    Inv (replaceFirst sel [("title", .str title), ("completed", .bool completed)] db) := by
  refine ⟨?_, ?_⟩
  · intro d hd
    rcases mem_replaceFirst hd with hd | hd
    · exact h.1 d hd
    · rw [hd, Unmarshal_update]
      exact htitle
  · rw [ids_replaceFirst]
    exact h.2

theorem Inv_removeFirst {db : Collection} (h : Inv db) (i : ObjectId) :
    Inv (removeFirst i db) := by
  have hs := removeFirst_sublist i db
  exact ⟨fun d hd => h.1 d (hs.subset hd), h.2.sublist (hs.map Doc.id)⟩

/-- Claim C9: the invariant "every stored item has a title that is not empty and no two
stored items share an id" is preserved by every handler: when it holds of the store before a
call of createTodo, updateTodo, deleteTodo or fetchTodos, with any request and in any
environment, whether the call succeeds or fails, it holds of the store afterwards. (An id
the generator repeats is rejected by the insert, so no assumption on the generator is
needed.) -/
theorem handlers_preserve_Inv (env : Env) (r : Request) (db : Collection) (h : Inv db) :
    Inv (createTodo env r db).db ∧ Inv (updateTodo env r db).db
      ∧ Inv (deleteTodo env r db).db ∧ Inv (fetchTodos env r db).db := by
  refine ⟨?_, ?_, ?_, ?_⟩
  · unfold createTodo
    cases hb : r.Body with
    | error err => exact h
    | ok t =>
      by_cases ht : t.Title = ""
      · simp only [if_pos ht]; exact h
      · simp only [if_neg ht, Insert]
        cases hf : env.fault with
        | some msg => exact h
        | none =>
          by_cases hm : env.NewObjectId ∈ ids db
          · simp only [Marshal, if_pos hm]; exact h
          · simp only [Marshal, if_neg hm]
            exact Inv_insert ⟨env.NewObjectId, t.Title, false, env.Now⟩ h ht hm
  · unfold updateTodo
    by_cases hv : IsObjectIdHex (TrimSpace r.id) = true
    · simp only [hv, Bool.not_true, Bool.false_eq_true, if_false]
      cases hb : r.Body with
      | error err => exact h
      | ok t =>
        by_cases ht : t.Title = ""
        · simp only [if_pos ht]; exact h
        · simp only [if_neg ht]
          cases ho : ObjectIdHex (TrimSpace r.id) with
          | none => exact h
          | some oid =>
            simp only [Update]
            cases hf : env.fault with
            | some msg => exact h
            | none =>
              by_cases hm : oid ∈ ids db
              · simp only [if_pos hm]
                exact Inv_replaceFirst h oid t.Title t.Completed ht
              · simp only [if_neg hm]; exact h
    · simp only [Bool.not_eq_true] at hv
      simp only [hv, Bool.not_false, if_true]
      exact h
  · unfold deleteTodo
    by_cases hv : IsObjectIdHex (TrimSpace r.id) = true
    · simp only [hv, Bool.not_true, Bool.false_eq_true, if_false]
      cases ho : ObjectIdHex (TrimSpace r.id) with
      | none => exact h
      | some oid =>
        simp only [RemoveId]
        cases hf : env.fault with
        | some msg => exact h
        | none =>
          by_cases hm : oid ∈ ids db
          · simp only [if_pos hm]
            exact Inv_removeFirst h oid
          · simp only [if_neg hm]; exact h
    · simp only [Bool.not_eq_true] at hv
      simp only [hv, Bool.not_false, if_true]
      exact h
  · unfold fetchTodos
    cases FindAll env.fault db <;> exact h

theorem Inv_sampleDb : Inv sampleDb := by
  refine ⟨?_, by decide⟩
  intro d hd
  rw [List.mem_singleton.mp hd]
  decide

/-- Witness of C9: the four handlers on the sample store. -/
theorem handlers_preserve_Inv_witness :
    Inv sampleDb
      ∧ Inv (createTodo sampleEnv (idRequest "5f0102030405060708090aab" "x" true) sampleDb).db
      ∧ Inv (updateTodo sampleEnv (idRequest "5f0102030405060708090aab" "x" true) sampleDb).db
      ∧ Inv (deleteTodo sampleEnv (idRequest "5f0102030405060708090aab" "x" true) sampleDb).db
      ∧ Inv (fetchTodos sampleEnv (idRequest "5f0102030405060708090aab" "x" true) sampleDb).db :=
  ⟨Inv_sampleDb,
    handlers_preserve_Inv sampleEnv (idRequest "5f0102030405060708090aab" "x" true) sampleDb
      Inv_sampleDb⟩

/-- Claim C10: updateTodo validates in the order id, body, title. With a valid id, a body that
fails to decode is answered with the processing status (102) carrying the decoding error,
and a body that decodes with an empty title is answered 400 "The title field is requried";
in both cases the only call made is the decoding of the body, no update is issued and the
store is as it was. A storage update appears among the calls only when the id is valid, the
body decodes and its title is not empty, and in that case it is issued, once, for the decoded
id with the submitted title and completed flag. -/
theorem updateTodo_validation_order (env : Env) (r : Request) (db : Collection) :
    (IsObjectIdHex (TrimSpace r.id) = true →
        (∀ msg, r.Body = .error msg →
          updateTodo env r db = ⟨.JSON 102 (.err (.json msg)), db, [.decodeBody]⟩)
        ∧ (∀ t, r.Body = .ok t → t.Title = "" →
          updateTodo env r db
            = ⟨.JSON 400 (.M [("message", .str "The title field is requried")]), db,
                [.decodeBody]⟩)
        ∧ (∀ t, r.Body = .ok t → t.Title ≠ "" →
          ∃ i, ObjectIdHex (TrimSpace r.id) = some i
            ∧ (updateTodo env r db).log
                = [.decodeBody,
                   .update i [("title", .str t.Title), ("completed", .bool t.Completed)]]))
      ∧ (∀ sel upd, Effect.update sel upd ∈ (updateTodo env r db).log →
          IsObjectIdHex (TrimSpace r.id) = true ∧ ∃ t, r.Body = .ok t ∧ t.Title ≠ "") := by
  constructor
  · intro hv
    refine ⟨?_, ?_, ?_⟩
    · intro msg hb
      simp [updateTodo, hv, hb]
    · intro t hb ht
      simp [updateTodo, hv, hb, ht]
    · intro t hb ht
      obtain ⟨i, hid⟩ := (IsObjectIdHex_iff _).mp hv
      refine ⟨i, hid, ?_⟩
      rw [updateTodo_run env r db i t hid hb ht]
      cases Update env.fault db i _ <;> rfl
  · intro sel upd hmem
    by_cases hv : IsObjectIdHex (TrimSpace r.id) = true
    · refine ⟨hv, ?_⟩
      cases hb : r.Body with
      | error msg =>
        simp [updateTodo, hv, hb] at hmem
      | ok t =>
        by_cases ht : t.Title = ""
        · simp [updateTodo, hv, hb, ht] at hmem
        · exact ⟨t, rfl, ht⟩
    · simp only [Bool.not_eq_true] at hv
      simp [updateTodo, hv] at hmem

/-- Witness of C10: a valid id with a malformed body, on the sample store. -/
theorem updateTodo_validation_order_witness :
    IsObjectIdHex (TrimSpace " 5f0102030405060708090aab ") = true
      ∧ (badBodyRequest " 5f0102030405060708090aab ").Body = .error "unexpected EOF"
      ∧ updateTodo sampleEnv (badBodyRequest " 5f0102030405060708090aab ") sampleDb
          = ⟨.JSON 102 (.err (.json "unexpected EOF")), sampleDb, [.decodeBody]⟩ :=
  ⟨by decide, rfl,
    ((updateTodo_validation_order sampleEnv (badBodyRequest " 5f0102030405060708090aab ")
      sampleDb).1 (by decide)).1 "unexpected EOF" rfl⟩

/-- What updateTodo does to an item it finds: with the storage reachable, the update of a stored
id `i` is answered 200, and the stored document with that id then decodes to the submitted
title and completed flag under the same id, with createdAt at the zero time. -/
theorem updateTodo_replaces_document (env : Env) (r : Request) (db : Collection) (i : ObjectId)
    (t : todo) (hid : ObjectIdHex (TrimSpace r.id) = some i) (hmem : i ∈ ids db)
    (hok : env.fault = none) (hbody : r.Body = .ok t) (htitle : t.Title ≠ "") :
    (updateTodo env r db).response
        = .JSON 200 (.M [("message", .str "Todo updated successfully")])
      ∧ ids (updateTodo env r db).db = ids db
      ∧ ∀ d ∈ (updateTodo env r db).db, d ∈ db
          ∨ Unmarshal d = { ID := i, Title := t.Title, Completed := t.Completed,
                            CreatedAt := zeroTime } := by
  have h1 : updateTodo env r db
      = ⟨.JSON 200 (.M [("message", .str "Todo updated successfully")]),
          replaceFirst i [("title", .str t.Title), ("completed", .bool t.Completed)] db,
          [.decodeBody,
           .update i [("title", .str t.Title), ("completed", .bool t.Completed)]]⟩ := by
    rw [updateTodo_run env r db i t hid hbody htitle]
    simp only [Update, hok, if_pos hmem]
  rw [h1]
  refine ⟨rfl, ids_replaceFirst _ _ _, ?_⟩
  intro d hd
  rcases mem_replaceFirst hd with hd | hd
  · exact Or.inl hd
  · right
    rw [hd, Unmarshal_update]

end TodoService
